import Mathlib

/-
Verification development for the timestream2 pipeline engine.

Shallow embedding of the Python sources:
  pyts2/time.py          (parse_date, TSInstant)
  pyts2/pipeline/base.py (TSPipeline, ResultRecorder, pipeline steps)

Machine strings are modelled as Lean String / List Char; Python dicts are
modelled as association lists preserving insertion order (CPython dicts are
ordered); raised exceptions are modelled with Except String; values written
to the report TSV are modelled with an inductive PyVal.
-/

/- ====================== decimal rendering utilities ====================== -/

/-- Decimal digits of a natural number, most significant first, using an
explicit structural fuel so that the definition reduces by `rfl`/`decide`.
`natDecAux (n+1) n` renders `n` the way CPython renders an int. -/
def natDecAux : Nat → Nat → List Char
  | 0, _ => []
  | fuel + 1, n =>
    if n < 10 then [Nat.digitChar n]
    else natDecAux fuel (n / 10) ++ [Nat.digitChar (n % 10)]

/-- Decimal rendering of a natural number as a character list
(CPython `str(n)` / `"%d" % n` for a non-negative int). -/
def natDecChars (n : Nat) : List Char := natDecAux (n + 1) n

/-- CPython format spec `"%02d"` / `f"{n:02d}"` on a non-negative int:
zero-pad the decimal rendering on the left to a minimum width of 2. -/
def fmt02c (n : Nat) : List Char :=
  if n < 10 then '0' :: natDecChars n else natDecChars n

/-- Python string `<` comparison on character lists: lexicographic by code
point, with a strict prefix ordered first. This is the order used by
`sorted` on the aggregator's string keys. -/
def lexLt : List Char → List Char → Bool
  | [], [] => false
  | [], _ :: _ => true
  | _ :: _, [] => false
  | a :: as, b :: bs => if a = b then lexLt as bs else decide (a < b)

/- ====================== pyts2/time.py : data model ====================== -/

/-- Wall-clock timestamp, the fields of a (naive) `datetime.datetime` that
the engine uses. Microseconds never flow through the code under test. -/
structure DateTime where
  year : Nat
  month : Nat
  day : Nat
  hour : Nat
  minute : Nat
  second : Nat
deriving DecidableEq, Repr

/-- Leap-year rule used by `datetime` for day-of-month validation. -/
def isLeap (y : Nat) : Bool := y % 4 = 0 && (y % 100 != 0 || y % 400 = 0)

/-- Days in a month, as validated by the `datetime` constructor. -/
def daysInMonth (y mo : Nat) : Nat :=
  if mo = 2 then (if isLeap y then 29 else 28)
  else if mo = 4 || mo = 6 || mo = 9 || mo = 11 then 30
  else 31

/-- Range validation performed by the `datetime.datetime` constructor
(year 1..9999, month 1..12, day 1..days-in-month, hour below 24, minute
and second below 60). -/
def validDateTime (t : DateTime) : Bool :=
  1 ≤ t.year && t.year ≤ 9999 && 1 ≤ t.month && t.month ≤ 12 &&
  1 ≤ t.day && t.day ≤ daysInMonth t.year t.month &&
  t.hour ≤ 23 && t.minute ≤ 59 && t.second ≤ 59

/-- TSInstant: a moment in time plus an optional sub-second counter and an
optional index string (pyts2/time.py, class TSInstant). -/
structure TSInstant where
  datetime : DateTime
  subsecond : Nat
  index : Option String
deriving DecidableEq, Repr

/-- Characters of `datetime.strftime("%Y_%m_%d_%H_%M_%S")`: each field
two-digit zero-padded, the year rendered as its decimal digits. -/
def strftime_TS_chars (t : DateTime) : List Char :=
  natDecChars t.year ++ '_' :: fmt02c t.month ++ '_' :: fmt02c t.day ++
  '_' :: fmt02c t.hour ++ '_' :: fmt02c t.minute ++ '_' :: fmt02c t.second

/-- Model of `TSInstant.__str__` (also `__repr__`): strftime of the datetime, then
`f"_{subsecond:02d}"`, then `f"_{index}"` when an index is present. -/
def TSInstant.str (i : TSInstant) : String :=
  String.mk (strftime_TS_chars i.datetime ++ '_' :: fmt02c i.subsecond ++
    (match i.index with
     | none => []
     | some ix => '_' :: ix.data))

/- ====================== pyts2/time.py : parsing ====================== -/

/-- Value of a decimal digit character. -/
def digitVal (c : Char) : Nat := c.toNat - 48

/-- Parse exactly `w` decimal digits into a number, returning the value and
the remaining characters (fails if fewer than `w` digits are present). -/
def fixedNat : Nat → Nat → List Char → Option (Nat × List Char)
  | 0, acc, cs => some (acc, cs)
  | w + 1, acc, c :: cs =>
      if c.isDigit then fixedNat w (acc * 10 + digitVal c) cs else none
  | _ + 1, _, [] => none

/-- Hours/minutes part of an iso8601 timezone designator: `HH`, `HH:MM` or
`HHMM`, yielding the offset in minutes. -/
def isoTzHM (cs : List Char) : Option (Int × List Char) :=
  match fixedNat 2 0 cs with
  | none => none
  | some (h, r1) =>
    match r1 with
    | ':' :: r2 =>
      match fixedNat 2 0 r2 with
      | none => none
      | some (m, r3) => some (((h * 60 + m : Nat) : Int), r3)
    | _ =>
      match fixedNat 2 0 r1 with
      | some (m, r3) => some (((h * 60 + m : Nat) : Int), r3)
      | none => some (((h * 60 : Nat) : Int), r1)

/-- Optional iso8601 timezone designator: `Z` or `±HH[:MM]`; yields the
offset in minutes when one is present. -/
def isoTz : List Char → Option (Option Int × List Char)
  | 'Z' :: rest => some (some 0, rest)
  | '+' :: rest => (isoTzHM rest).map (fun p => (some p.1, p.2))
  | '-' :: rest => (isoTzHM rest).map (fun p => (some (-p.1), p.2))
  | cs => some (none, cs)

/-- iso8601 time-of-day: `HH[:MM[:SS[.frac]]]` (fractional seconds are
accepted and discarded, as the engine never reads microseconds). -/
def isoHMS (cs : List Char) : Option (Nat × Nat × Nat × List Char) :=
  match fixedNat 2 0 cs with
  | none => none
  | some (h, r1) =>
    match r1 with
    | ':' :: r2 =>
      match fixedNat 2 0 r2 with
      | none => none
      | some (mi, r3) =>
        match r3 with
        | ':' :: r4 =>
          match fixedNat 2 0 r4 with
          | none => none
          | some (sec, r5) =>
            match r5 with
            | '.' :: r6 =>
              let ds := r6.takeWhile Char.isDigit
              if ds.isEmpty then none else some (h, mi, sec, r6.drop ds.length)
            | ',' :: r6 =>
              let ds := r6.takeWhile Char.isDigit
              if ds.isEmpty then none else some (h, mi, sec, r6.drop ds.length)
            | _ => some (h, mi, sec, r5)
        | _ => some (h, mi, 0, r3)
    | _ => some (h, 0, 0, r1)

/-- Validate the parsed fields the way the `datetime` constructor does and
package the result; a range error makes the library raise, which the
caller's bare `except` turns into a failure (`none`). -/
def mkIsoResult (y mo d h mi s : Nat) (tz : Option Int) :
    Option (DateTime × Option Int) :=
  let t : DateTime := ⟨y, mo, d, h, mi, s⟩
  if validDateTime t then some (t, tz) else none

/-- Modelled from the spec: the external `iso8601` library dependency
(`iso8601.parse_date`, source not under src/), the spec's "general
extended-timestamp format (date+time with optional timezone)". Accepts,
anchored at both ends, `YYYY[-MM[-DD[{T or space}HH[:MM[:SS[.frac]]]
[Z or ±HH[:MM]]]]]`; omitted month/day default to 1, omitted time to
00:00:00. Returns the wall-clock fields plus the timezone offset in
minutes when one was written. Strings that are not of this shape (in
particular the underscore-separated timestream form) are rejected. -/
def iso8601_parse (s : String) : Option (DateTime × Option Int) :=
  match fixedNat 4 0 s.data with
  | none => none
  | some (y, r0) =>
    match r0 with
    | [] => mkIsoResult y 1 1 0 0 0 none
    | '-' :: r1 =>
      match fixedNat 2 0 r1 with
      | none => none
      | some (mo, r2) =>
        match r2 with
        | [] => mkIsoResult y mo 1 0 0 0 none
        | '-' :: r3 =>
          match fixedNat 2 0 r3 with
          | none => none
          | some (d, r4) =>
            match r4 with
            | [] => mkIsoResult y mo d 0 0 0 none
            | sep :: r5 =>
              if sep = 'T' || sep = ' ' then
                match isoHMS r5 with
                | none => none
                | some (h, mi, sec, r6) =>
                  match isoTz r6 with
                  | none => none
                  | some (tz, r7) =>
                    if r7.isEmpty then mkIsoResult y mo d h mi sec tz
                    else none
              else none
        | _ => none
    | _ => none

/-- CPython `_strptime` pattern for `%m`: `1[0-2]|0[1-9]|[1-9]`,
alternatives tried left to right. -/
def strpMonth : List Char → Option (Nat × List Char)
  | c1 :: c2 :: rest =>
      if c1 = '1' && ('0' ≤ c2 && c2 ≤ '2') then some (10 + digitVal c2, rest)
      else if c1 = '0' && ('1' ≤ c2 && c2 ≤ '9') then some (digitVal c2, rest)
      else if '1' ≤ c1 && c1 ≤ '9' then some (digitVal c1, c2 :: rest)
      else none
  | [c1] => if '1' ≤ c1 && c1 ≤ '9' then some (digitVal c1, []) else none
  | [] => none

/-- CPython `_strptime` pattern for `%d`: `3[01]|[12]\d|0[1-9]|[1-9]`. -/
def strpDay : List Char → Option (Nat × List Char)
  | c1 :: c2 :: rest =>
      if c1 = '3' && ('0' ≤ c2 && c2 ≤ '1') then some (30 + digitVal c2, rest)
      else if ('1' ≤ c1 && c1 ≤ '2') && c2.isDigit then
        some (digitVal c1 * 10 + digitVal c2, rest)
      else if c1 = '0' && ('1' ≤ c2 && c2 ≤ '9') then some (digitVal c2, rest)
      else if '1' ≤ c1 && c1 ≤ '9' then some (digitVal c1, c2 :: rest)
      else none
  | [c1] => if '1' ≤ c1 && c1 ≤ '9' then some (digitVal c1, []) else none
  | [] => none

/-- CPython `_strptime` pattern for `%H`: `2[0-3]|[0-1]\d|\d`. -/
def strpHour : List Char → Option (Nat × List Char)
  | c1 :: c2 :: rest =>
      if c1 = '2' && ('0' ≤ c2 && c2 ≤ '3') then some (20 + digitVal c2, rest)
      else if ('0' ≤ c1 && c1 ≤ '1') && c2.isDigit then
        some (digitVal c1 * 10 + digitVal c2, rest)
      else if c1.isDigit then some (digitVal c1, c2 :: rest)
      else none
  | [c1] => if c1.isDigit then some (digitVal c1, []) else none
  | [] => none

/-- CPython `_strptime` pattern for `%M` (and the 0-59 core of `%S`):
`[0-5]\d|\d`. -/
def strpMin : List Char → Option (Nat × List Char)
  | c1 :: c2 :: rest =>
      if ('0' ≤ c1 && c1 ≤ '5') && c2.isDigit then
        some (digitVal c1 * 10 + digitVal c2, rest)
      else if c1.isDigit then some (digitVal c1, c2 :: rest)
      else none
  | [c1] => if c1.isDigit then some (digitVal c1, []) else none
  | [] => none

/-- Model of `datetime.datetime.strptime(s, "%Y_%m_%d_%H_%M_%S")`
(TS_IMAGE_DATEFMT): `%Y` is exactly four digits, the numeric fields follow
the CPython `_strptime` patterns, the whole string must be consumed, and
the resulting fields must form a valid `datetime`. -/
def strptime_TS (s : String) : Option DateTime :=
  match fixedNat 4 0 s.data with
  | none => none
  | some (y, r0) =>
    match r0 with
    | '_' :: r1 =>
      match strpMonth r1 with
      | none => none
      | some (mo, r2) =>
        match r2 with
        | '_' :: r3 =>
          match strpDay r3 with
          | none => none
          | some (d, r4) =>
            match r4 with
            | '_' :: r5 =>
              match strpHour r5 with
              | none => none
              | some (h, r6) =>
                match r6 with
                | '_' :: r7 =>
                  match strpMin r7 with
                  | none => none
                  | some (mi, r8) =>
                    match r8 with
                    | '_' :: r9 =>
                      match strpMin r9 with
                      | none => none
                      | some (sec, r10) =>
                        if r10.isEmpty then
                          let t : DateTime := ⟨y, mo, d, h, mi, sec⟩
                          if validDateTime t then some t else none
                        else none
                    | _ => none
                | _ => none
            | _ => none
        | _ => none
    | _ => none

/-- Argument to `parse_date`: either an already-typed `datetime.datetime`
or a string. -/
inductive PyDateArg where
  | dt (t : DateTime)
  | str (s : String)
deriving DecidableEq, Repr

/-- Model of `parse_date` (pyts2/time.py): an already-typed datetime passes through
unchanged; a string is first tried as iso8601 (on success the timezone is
discarded by `date.replace(tzinfo=None)`, keeping the wall-clock fields),
then as the fixed `%Y_%m_%d_%H_%M_%S` pattern; otherwise a `ValueError`
naming the string is raised. -/
def parse_date : PyDateArg → Except String DateTime
  | .dt t => .ok t
  | .str s =>
    match iso8601_parse s with
    | some (t, _tz) => .ok t
    | none =>
      match strptime_TS s with
      | some t => .ok t
      | none =>
        .error ("date string \x27" ++ s ++
          "\x27 doesn\x27t match valid date formats")

/- ====================== pyts2/time.py : from_path ====================== -/

/-- Model of `os.path.basename`: the part of the path after the last `/`. -/
def basename (s : String) : String :=
  String.mk (s.data.foldl (fun acc c => if c = '/' then [] else acc ++ [c]) [])

/-- Root part of `os.path.splitext` on a basename: cut at the last dot,
unless every character before that dot is itself a dot (leading-dot files
such as `.bashrc` keep their name whole). -/
def splitextRoot (s : String) : String :=
  let cs := s.data
  match cs.reverse.findIdx? (fun c => c = '.') with
  | none => s
  | some j =>
    let i := cs.length - 1 - j
    if (cs.take i).all (fun c => c = '.') then s else String.mk (cs.take i)

/-- A regex `\w` word character (ASCII part, which is all the timestream
filenames use). -/
def isWordChar (c : Char) : Bool := c.isAlphanum || c = '_'

/-- Head match of the datetime group of TS_IMAGE_DATETIME_RE,
`\d{4}_[0-1]\d_[0-3]\d_[0-2]\d_[0-5]\d_[0-5]\d`: nineteen characters,
returned together with the remaining input. -/
def matchDt : List Char → Option (List Char × List Char)
  | a1 :: a2 :: a3 :: a4 :: u1 :: b1 :: b2 :: u2 :: c1 :: c2 :: u3 ::
    d1 :: d2 :: u4 :: e1 :: e2 :: u5 :: f1 :: f2 :: rest =>
      if a1.isDigit && a2.isDigit && a3.isDigit && a4.isDigit &&
         u1 = '_' && ('0' ≤ b1 && b1 ≤ '1') && b2.isDigit &&
         u2 = '_' && ('0' ≤ c1 && c1 ≤ '3') && c2.isDigit &&
         u3 = '_' && ('0' ≤ d1 && d1 ≤ '2') && d2.isDigit &&
         u4 = '_' && ('0' ≤ e1 && e1 ≤ '5') && e2.isDigit &&
         u5 = '_' && ('0' ≤ f1 && f1 ≤ '5') && f2.isDigit then
        some ([a1, a2, a3, a4, u1, b1, b2, u2, c1, c2, u3, d1, d2, u4,
               e1, e2, u5, f1, f2], rest)
      else none
  | _ => none

/-- Model of `TS_IMAGE_DATETIME_RE.search`: scan left to right for the first
position where the datetime group matches, then greedily take the optional
`(_\d+)?` subsecond group and the optional `(_\w+)?` index group (both
groups are returned with their leading underscore, as `m.groups()` does).
Since both trailing groups are optional, the leftmost datetime match always
yields the overall match, so no backtracking across positions occurs. -/
def searchTS : List Char → Option (String × Option String × Option String)
  | [] => none
  | c :: rest =>
    match matchDt (c :: rest) with
    | some (dt, after) =>
      match after with
      | '_' :: t =>
        let ds := t.takeWhile Char.isDigit
        if ds.isEmpty then
          let ws := t.takeWhile isWordChar
          if ws.isEmpty then some (String.mk dt, none, none)
          else some (String.mk dt, none, some (String.mk ('_' :: ws)))
        else
          match t.drop ds.length with
          | '_' :: t2 =>
            let ws := t2.takeWhile isWordChar
            if ws.isEmpty then
              some (String.mk dt, some (String.mk ('_' :: ds)), none)
            else
              some (String.mk dt, some (String.mk ('_' :: ds)),
                    some (String.mk ('_' :: ws)))
          | _ => some (String.mk dt, some (String.mk ('_' :: ds)), none)
      | _ => some (String.mk dt, none, none)
    | none => searchTS rest

/-- Python `int(...)` on a string of decimal digits. -/
def digitsToNat (cs : List Char) : Nat :=
  cs.foldl (fun a c => a * 10 + digitVal c) 0

/-- Model of `TSInstant.from_path`: strip the path to its basename without
extension, search for the timestream pattern, parse the datetime group
with `parse_date`, convert the subsecond group (leading underscores
stripped) with `int`, and strip the index group's leading underscores.
Failures are the source's own: no match raises `ValueError` naming the
path; a datetime group the two date formats reject propagates the
`parse_date` error; an absent subsecond group reaches
`TSInstant.__init__`'s `int(None)`, which raises `TypeError`. -/
def TSInstant.from_path (path : String) : Except String TSInstant :=
  let fn := splitextRoot (basename path)
  match searchTS fn.data with
  | none =>
    .error ("path \x27" ++ path ++ "\x27 doesn\x27t contain a timestream date")
  | some (dt, subsec, index) =>
    match parse_date (.str dt) with
    | .error e => .error e
    | .ok t =>
      match subsec with
      | none =>
        .error "TypeError: int() argument must be a string, not NoneType"
      | some ss =>
        .ok ⟨t, digitsToNat (ss.data.dropWhile (fun c => c = '_')),
             index.map (fun ix => String.mk (ix.data.dropWhile (fun c => c = '_')))⟩

/- =============== pyts2/pipeline/base.py : values and dicts =============== -/

/-- A value stored in a frame's report or written to a report cell: the
code only distinguishes strings (whitespace-normalised, quoted by the csv
dialect) from non-strings (numbers, written unquoted). -/
inductive PyVal where
  | str (s : String)
  | int (n : Int)
deriving DecidableEq, Repr

/-- Ordered dictionary, as CPython dicts preserve insertion order. -/
abbrev PyDict := List (String × PyVal)

/-- Assignment `d[k] = v`: overwrite in place when the key exists (keeping its
position), otherwise append at the end. -/
def dictSet (d : PyDict) (k : String) (v : PyVal) : PyDict :=
  if d.any (fun p => p.1 = k) then
    d.map (fun p => if p.1 = k then (k, v) else p)
  else d ++ [(k, v)]

/-- Lookup `d.get(k, None)`. -/
def dictGet (d : PyDict) (k : String) : Option PyVal :=
  (d.find? (fun p => p.1 = k)).map (fun p => p.2)

/-- Update `d.update(kw)`: assign every pair of `kw` in order. -/
def dictUpdate (d kw : PyDict) : PyDict :=
  kw.foldl (fun acc p => dictSet acc p.1 p.2) d

/-- A frame (TimestreamFile, external to the engine): the engine only
touches its instant and its mutable report mapping; the byte payload and
filename are opaque to the code under test and are not modelled. -/
structure Frame where
  instant : TSInstant
  report : PyDict
deriving DecidableEq, Repr

/-- Assignment `file.report["Errors"] = str(exc)`. -/
def setError (f : Frame) (e : String) : Frame :=
  { f with report := dictSet f.report "Errors" (.str e) }

/- =============== pyts2/pipeline/base.py : ResultRecorder =============== -/

/-- ResultRecorder state: the discovery-ordered field-name list and the
defaultdict from `repr(instant)` to a per-instant field dict. -/
structure Recorder where
  fields : List String
  data : List (String × PyDict)
deriving DecidableEq, Repr

/-- Constructor `ResultRecorder()`. -/
def Recorder.empty : Recorder := ⟨[], []⟩

/-- Effect of `self.data[key].update(kw)` on a defaultdict(dict): an existing entry
is updated in place, a missing key materialises an empty dict entry at the
end first. -/
def dataUpd (data : List (String × PyDict)) (key : String) (kw : PyDict) :
    List (String × PyDict) :=
  if data.any (fun p => p.1 = key) then
    data.map (fun p => if p.1 = key then (p.1, dictUpdate p.2 kw) else p)
  else data ++ [(key, dictUpdate [] kw)]

/-- Model of `ResultRecorder.record(instant, **kwargs)`: for every key of the
kwargs dict in order, append the key to the field list when unseen, then
update the record for `repr(instant)` with the whole kwargs dict (the
source performs this update inside the loop, once per key). The caller
passes `repr(instant)` as the record key. -/
def ResultRecorder.record (r : Recorder) (instantKey : String)
    (kwargs : PyDict) : Recorder :=
  kwargs.foldl
    (fun acc kv =>
      { fields := if kv.1 ∈ acc.fields then acc.fields
                  else acc.fields ++ [kv.1],
        data := dataUpd acc.data instantKey kwargs })
    r

/-- Python whitespace class, `\s` on ASCII input. -/
def isPySpace (c : Char) : Bool :=
  c = ' ' || c = '\t' || c = '\n' || c = '\r' || c = '\x0b' || c = '\x0c'

/-- Scanning state machine of `re.sub(r"\s+", " ", s, count)`: `count` runs
of whitespace remaining to replace, a flag recording whether we are inside
a run that has already been replaced. Once `count` hits zero outside a
run, the rest of the string is copied verbatim. -/
def subWsM : Nat → Bool → List Char → List Char
  | _, _, [] => []
  | count, true, c :: rest =>
      if isPySpace c then subWsM count true rest
      else c :: subWsM count false rest
  | count, false, c :: rest =>
      if isPySpace c then
        match count with
        | 0 => c :: rest
        | k + 1 => ' ' :: subWsM k true rest
      else c :: subWsM count false rest

/-- Model of `re.sub(r"\s+", " ", s, count)`: replace the first `count` maximal
whitespace runs by a single space. The source passes
`re.IGNORECASE | re.MULTILINE` (= 2 | 8 = 10) in this positional `count`
slot, so `save` only ever collapses the first ten runs. -/
def pyReSubWs (count : Nat) (s : String) : String :=
  String.mk (subWsM count false s.data)

/-- Modelled from the spec: the intended normalisation, "internal
whitespace runs collapsed to a single space" with no bound on the number
of runs (what `re.sub(r"\s+", " ", val, flags=...)` would do). -/
def collapseWsSpec_aux : Bool → List Char → List Char
  | _, [] => []
  | true, c :: rest =>
      if isPySpace c then collapseWsSpec_aux true rest
      else c :: collapseWsSpec_aux false rest
  | false, c :: rest =>
      if isPySpace c then ' ' :: collapseWsSpec_aux true rest
      else c :: collapseWsSpec_aux false rest

/-- Modelled from the spec: whitespace normalisation applied to every run
of the string. -/
def collapseWsSpec (s : String) : String :=
  String.mk (collapseWsSpec_aux false s.data)

/-- Insertion step for `sorted(self.data.items())`: items are ordered by
their string key (tuples with distinct first components never compare the
dict part). -/
def insertPair (p : String × PyDict) :
    List (String × PyDict) → List (String × PyDict)
  | [] => [p]
  | q :: qs => if lexLt p.1.data q.1.data then p :: q :: qs
               else q :: insertPair p qs

/-- Model of `sorted(self.data.items())` by instant-string key. -/
def sortPairs (l : List (String × PyDict)) : List (String × PyDict) :=
  l.foldr insertPair []

/-- Model of `ResultRecorder.save(outpath)`: returns `none` when no row is written
(no file is created or modified), otherwise `some` of the rows written to
the freshly opened file: a header row `Instant` plus the fields in
discovery order, then one row per record in sorted key order, missing
fields as the string `"NA"`, string values passed through
`re.sub(r"\s+", " ", val, re.IGNORECASE | re.MULTILINE)` — whose fourth
positional argument is `count`, so only the first ten whitespace runs are
replaced. The csv dialect (tab delimiter, numeric-only quoting) formats
these cells without changing them and is not modelled further. -/
def ResultRecorder.save (r : Recorder) : Option (List (List PyVal)) :=
  if r.data.length < 1 then none
  else some
    ((PyVal.str "Instant" :: r.fields.map PyVal.str) ::
     (sortPairs r.data).map (fun p =>
       PyVal.str p.1 :: r.fields.map (fun field =>
         match dictGet p.2 field with
         | none => PyVal.str (pyReSubWs 10 "NA")
         | some (.str s) => PyVal.str (pyReSubWs 10 s)
         | some (.int n) => PyVal.int n)))

/- =============== pyts2/pipeline/base.py : TSPipeline =============== -/

/-- A pipeline-step object as Python duck typing sees it: whether the
`process_file` and `finish` attributes exist, and the behaviour of a
`process_file` call. The call receives whatever the previous step
returned — possibly `None` — and either returns a (possibly `None`)
frame or raises, modelled as `Except.error` of the stringified
exception. -/
structure PyStep where
  has_process_file : Bool
  has_finish : Bool
  run : Option Frame → Except String (Option Frame)

/-- Call `step.process_file(file)` including the attribute lookup: a missing
`process_file` attribute raises `AttributeError` at the call site. -/
def stepCall (s : PyStep) (file : Option Frame) : Except String (Option Frame) :=
  if s.has_process_file then s.run file
  else .error "AttributeError: object has no attribute process_file"

/-- Model of `TSPipeline.process_file(file)`: run the steps in order inside a
`try`. A step that raises stops the chain: the handler stringifies the
exception into the current frame's `Errors` report field and returns the
partially processed frame (when the current value is `None`, the
handler's own attribute access raises, and that exception propagates). -/
def TSPipeline.process_file (steps : List PyStep) (file : Option Frame) :
    Except String (Option Frame) :=
  match steps with
  | [] => .ok file
  | s :: rest =>
    match stepCall s file with
    | .ok f2 => TSPipeline.process_file rest f2
    | .error e =>
      match file with
      | some f => .ok (some (setError f e))
      | none => .error "AttributeError: NoneType object has no attribute report"

/-- Step chain with no exception anywhere: plain monadic composition of
the step calls. `runSteps steps file = .ok x` says every step ran and
succeeded, which is how "the steps before the raising one all succeeded"
is stated. -/
def runSteps (steps : List PyStep) (file : Option Frame) :
    Except String (Option Frame) :=
  match steps with
  | [] => .ok file
  | s :: rest =>
    match stepCall s file with
    | .ok f2 => runSteps rest f2
    | .error e => .error e

/-- TSPipeline state: the step list, the processed-frame counter `n` and
the owned ResultRecorder `report`. -/
structure TSPipelineState where
  steps : List PyStep
  n : Nat
  report : Recorder

/-- Model of `TSPipeline.add_step(step)`: reject immediately (ValueError) when the
object has no `process_file` attribute, otherwise append it. -/
def TSPipeline.add_step (p : TSPipelineState) (step : PyStep) :
    Except String TSPipelineState :=
  if !step.has_process_file then
    .error "step doesn\x27t seem to be a pipeline step"
  else .ok { p with steps := p.steps ++ [step] }

/-- Model of `TSPipeline.process(input_stream)`: map `process_file` over the input
in order (`executor.map` yields results in submission order regardless of
completion order; the worker pool itself adds no observable behaviour and
is not modelled). A `None` result is skipped; a non-`None` result is
recorded into the aggregator keyed by `repr(instant)` with its report as
kwargs, the counter is incremented, and the frame is yielded. An
exception escaping `process_file` re-raises in the driver loop and ends
the iteration; the third component carries it. -/
def TSPipeline.process (p : TSPipelineState) :
    List Frame → TSPipelineState × List Frame × Option String
  | [] => (p, [], none)
  | f :: fs =>
    match TSPipeline.process_file p.steps (some f) with
    | .error e => (p, [], some e)
    | .ok none => TSPipeline.process p fs
    | .ok (some f2) =>
      let p2 : TSPipelineState :=
        { p with
          report := ResultRecorder.record p.report (TSInstant.str f2.instant)
                      f2.report,
          n := p.n + 1 }
      let res := TSPipeline.process p2 fs
      (res.1, f2 :: res.2.1, res.2.2)

/-- Model of `CopyStep` ("Does Nothing"): the inherited identity `process_file`,
returning its argument unchanged. -/
def copyStep : PyStep :=
  { has_process_file := true, has_finish := true, run := fun f => .ok f }

/-- A step whose `process_file` always raises with message `msg`. -/
def raisingStep (msg : String) : PyStep :=
  { has_process_file := true, has_finish := true,
    run := fun _ => .error msg }

/-- Internal state of `ResultRecorderStep`: its own counter, recorder and
write interval (the output path is opaque). -/
structure RRStepState where
  n : Nat
  report : Recorder
  write_interval : Nat

/-- Model of `ResultRecorderStep.process_file(file)`: record the frame's report
into the step's own recorder, bump the counter, save on the periodic
cadence (second component: the rows written, if any), and fall off the end
of the function — returning `None`. -/
def ResultRecorderStep.process_file (st : RRStepState) (file : Frame) :
    RRStepState × Option (List (List PyVal)) × Option Frame :=
  let report2 := ResultRecorder.record st.report (TSInstant.str file.instant)
                   file.report
  let n2 := st.n + 1
  let saved := if n2 % st.write_interval = 0 then ResultRecorder.save report2
               else none
  (⟨n2, report2, st.write_interval⟩, saved, none)

/-- The `ResultRecorderStep` seen through the step contract: a call on a frame
returns the function's return value, `None` (its internal recording state
is threaded separately in Python and does not change the return value); a
call on `None` raises `AttributeError` at `file.instant`. -/
def resultRecorderStepAsStep (st : RRStepState) : PyStep :=
  { has_process_file := true, has_finish := true,
    run := fun file =>
      match file with
      | some f => .ok (ResultRecorderStep.process_file st f).2.2
      | none => .error "AttributeError: NoneType object has no attribute instant" }

/- ====================== concrete objects for witnesses ====================== -/

/-- An empty pipeline. -/
def pEmpty : TSPipelineState := ⟨[], 0, Recorder.empty⟩

/-- An object with a `process_file` attribute but no `finish` attribute. -/
def stepNoFinish : PyStep :=
  { has_process_file := true, has_finish := false, run := fun f => .ok f }

/-- An object with a `finish` attribute but no `process_file` attribute. -/
def stepNoProcessFile : PyStep :=
  { has_process_file := false, has_finish := true, run := fun f => .ok f }

/-- A concrete frame. -/
def frameA : Frame :=
  ⟨⟨⟨2017, 1, 2, 3, 4, 5⟩, 0, none⟩, [("FileName", .str "a.jpg")]⟩

/-- A second concrete frame. -/
def frameB : Frame :=
  ⟨⟨⟨2017, 1, 2, 3, 4, 6⟩, 0, none⟩, [("FileName", .str "b.jpg")]⟩

/-- A freshly constructed ResultRecorderStep (n=0, interval 1000). -/
def rrInit : RRStepState := ⟨0, Recorder.empty, 1000⟩

/-- Pipeline holding just a ResultRecorderStep. -/
def pRR : TSPipelineState := ⟨[resultRecorderStepAsStep rrInit], 0, Recorder.empty⟩

/-- Pipeline holding just a CopyStep. -/
def pCopy : TSPipelineState := ⟨[copyStep], 0, Recorder.empty⟩

/-- A report string with eleven whitespace runs (twelve words). -/
def c3Input : String := "a  b  c  d  e  f  g  h  i  j  k  l"

/-- An aggregator holding one record whose field value is `c3Input`. -/
def c3Recorder : Recorder :=
  ⟨["note"], [("2017_01_02_03_04_05_00", [("note", .str c3Input)])]⟩

/-- Reference fold for the known-field list: append each unseen name at
the end, in order. -/
def addFieldsList (fs ks : List String) : List String :=
  ks.foldl (fun a k => if k ∈ a then a else a ++ [k]) fs

/-- Lookup `self.data[str(instant)].get(k, None)` — the recorded value of field
`k` for a given instant key. -/
def recGet (r : Recorder) (i k : String) : Option PyVal :=
  ((r.data.find? (fun p => p.1 = i)).map (fun p => p.2)).bind
    (fun e => dictGet e k)

/-- Chronological order on instants: by datetime fields in significance
order, then by subsecond. -/
def ChronLt (i1 i2 : TSInstant) : Prop :=
  i1.datetime.year < i2.datetime.year ∨ (i1.datetime.year = i2.datetime.year ∧
  (i1.datetime.month < i2.datetime.month ∨ (i1.datetime.month = i2.datetime.month ∧
  (i1.datetime.day < i2.datetime.day ∨ (i1.datetime.day = i2.datetime.day ∧
  (i1.datetime.hour < i2.datetime.hour ∨ (i1.datetime.hour = i2.datetime.hour ∧
  (i1.datetime.minute < i2.datetime.minute ∨ (i1.datetime.minute = i2.datetime.minute ∧
  (i1.datetime.second < i2.datetime.second ∨ (i1.datetime.second = i2.datetime.second ∧
  i1.subsecond < i2.subsecond)))))))))))

/-- Every rendered component is fixed-width: four-digit year, two-digit
month/day/hour/minute/second (true of any valid datetime of year ≥ 1000)
and two-digit subsecond (subsecond ≤ 99). -/
def InstantRenderBounds (i : TSInstant) : Prop :=
  1000 ≤ i.datetime.year ∧ i.datetime.year ≤ 9999 ∧ i.datetime.month ≤ 99 ∧
  i.datetime.day ≤ 99 ∧ i.datetime.hour ≤ 99 ∧ i.datetime.minute ≤ 99 ∧
  i.datetime.second ≤ 99 ∧ i.subsecond ≤ 99

/-- Instants with subsecond ≥ 100 break the two-digit padding. -/
def c8i1 : TSInstant := ⟨⟨2017, 1, 2, 3, 4, 5⟩, 100, none⟩

/-- Same datetime, subsecond 20. -/
def c8i2 : TSInstant := ⟨⟨2017, 1, 2, 3, 4, 5⟩, 20, none⟩

/- ====================== claims ====================== -/

/-- C9: for every aggregator holding zero records, `save` performs no
filesystem write at all: with `len(self.data) < 1` it returns before
opening the file, so nothing is created or modified. -/
theorem c9_save_empty_is_noop :
    ∀ fields : List String, ResultRecorder.save ⟨fields, []⟩ = none :=
  fun _ => rfl

/-- C7: `TSInstant.from_path("2017_01_02_03_04_05_00_cam1.jpg")` yields
datetime 2017-01-02T03:04:05, subsecond 0 and index "cam1", and `str` of
that instant reproduces "2017_01_02_03_04_05_00_cam1". -/
theorem c7_from_path_example :
    TSInstant.from_path "2017_01_02_03_04_05_00_cam1.jpg" =
      Except.ok ⟨⟨2017, 1, 2, 3, 4, 5⟩, 0, some "cam1"⟩
    ∧ TSInstant.str ⟨⟨2017, 1, 2, 3, 4, 5⟩, 0, some "cam1"⟩ =
      "2017_01_02_03_04_05_00_cam1" :=
  ⟨rfl, by decide⟩

/-- C6: `parse_date` returns an already-typed datetime unchanged; a string
is first tried as an extended timestamp with optional timezone (on success
the timezone is stripped — the wall-clock fields are kept, not converted),
then as the fixed `YYYY_MM_DD_HH_MM_SS` pattern; if neither matches, the
error names the offending string. -/
theorem c6_parse_date_order :
    (∀ t : DateTime, parse_date (.dt t) = Except.ok t)
    ∧ (∀ (s : String) (t : DateTime) (tz : Option Int),
        iso8601_parse s = some (t, tz) → parse_date (.str s) = Except.ok t)
    ∧ (∀ (s : String) (t : DateTime),
        iso8601_parse s = none → strptime_TS s = some t →
        parse_date (.str s) = Except.ok t)
    ∧ (∀ s : String, iso8601_parse s = none → strptime_TS s = none →
        parse_date (.str s) = Except.error
          ("date string \x27" ++ s ++ "\x27 doesn\x27t match valid date formats")) := by
  refine ⟨fun t => rfl, ?_, ?_, ?_⟩
  · intro s t tz h
    simp [parse_date, h]
  · intro s t h1 h2
    simp [parse_date, h1, h2]
  · intro s h1 h2
    simp [parse_date, h1, h2]

/-- C6 witness: the timezone of "2017-01-02T03:04:05+10:30" is stripped,
not converted (wall clock 03:04:05 kept); the underscore form falls back
to the fixed pattern; an unparseable string is reported by name. -/
theorem c6_parse_date_order_witness :
    parse_date (.str "2017-01-02T03:04:05+10:30") =
      Except.ok ⟨2017, 1, 2, 3, 4, 5⟩
    ∧ parse_date (.str "2017_01_02_03_04_05") =
      Except.ok ⟨2017, 1, 2, 3, 4, 5⟩
    ∧ parse_date (.str "not-a-date") = Except.error
        "date string \x27not-a-date\x27 doesn\x27t match valid date formats" :=
  ⟨c6_parse_date_order.2.1 _ _ (some 630) rfl,
   c6_parse_date_order.2.2.1 _ _ rfl rfl,
   c6_parse_date_order.2.2.2 _ rfl rfl⟩

/-- C4 counterexample: an object exposing `process_file` but lacking
`finish` is accepted by `add_step` (no error), although the claim says an
object lacking either required operation is rejected. -/
theorem c4_add_step_counterexample :
    TSPipeline.add_step pEmpty stepNoFinish =
      Except.ok { pEmpty with steps := pEmpty.steps ++ [stepNoFinish] } :=
  rfl

/-- C4 amended: `add_step` validates only the presence of `process_file`:
an object without it is rejected immediately with ValueError (before any
frame is processed); an object with it is appended, whether or not it has
`finish`. -/
theorem c4_add_step_amended :
    ∀ (p : TSPipelineState) (s : PyStep),
    (s.has_process_file = false →
      TSPipeline.add_step p s =
        Except.error "step doesn\x27t seem to be a pipeline step")
    ∧ (s.has_process_file = true →
      TSPipeline.add_step p s = Except.ok { p with steps := p.steps ++ [s] }) := by
  intro p s
  constructor
  · intro h
    simp [TSPipeline.add_step, h]
  · intro h
    simp [TSPipeline.add_step, h]

/-- C4 amended witness: a concrete object without `process_file` is
rejected; a concrete object with `process_file` (even without `finish`)
is accepted. -/
theorem c4_add_step_amended_witness :
    TSPipeline.add_step pEmpty stepNoProcessFile =
      Except.error "step doesn\x27t seem to be a pipeline step"
    ∧ TSPipeline.add_step pEmpty stepNoFinish =
      Except.ok { pEmpty with steps := pEmpty.steps ++ [stepNoFinish] } :=
  ⟨(c4_add_step_amended pEmpty stepNoProcessFile).1 rfl,
   (c4_add_step_amended pEmpty stepNoFinish).2 rfl⟩

/-- C3 (code bug): `save` passes `re.IGNORECASE | re.MULTILINE` (= 10) in
the positional `count` argument of `re.sub`, so only the first ten
whitespace runs of a string value are collapsed. On a value with eleven
runs the written cell keeps the eleventh run verbatim, diverging from the
intended full normalisation. -/
theorem c3_whitespace_count_bug :
    ResultRecorder.save c3Recorder = some
      [[.str "Instant", .str "note"],
       [.str "2017_01_02_03_04_05_00", .str "a b c d e f g h i j k  l"]]
    ∧ pyReSubWs 10 c3Input ≠ collapseWsSpec c3Input
    ∧ collapseWsSpec c3Input = "a b c d e f g h i j k l" :=
  ⟨rfl, by decide, by decide⟩

/- ====================== association-list lemmas ====================== -/

theorem find?_map_set (d : PyDict) (k : String) (v : PyVal)
    (h : d.any (fun p => p.1 = k) = true) :
    (d.map (fun p => if p.1 = k then (k, v) else p)).find?
      (fun p => p.1 = k) = some (k, v) := by
  induction d with
  | nil => simp at h
  | cons q d ih =>
    rw [List.map_cons]
    by_cases hq : q.1 = k
    · rw [if_pos hq, List.find?_cons_of_pos _ (by simp)]
    · rw [if_neg hq, List.find?_cons_of_neg _ (by simpa using hq)]
      apply ih
      rw [List.any_cons] at h
      rcases Bool.or_eq_true_iff.mp h with h1 | h1
      · exact absurd (of_decide_eq_true h1) hq
      · exact h1

theorem find?_map_set_ne (d : PyDict) (k k2 : String) (v : PyVal)
    (hne : k2 ≠ k) :
    (d.map (fun p => if p.1 = k2 then (k2, v) else p)).find?
      (fun p => p.1 = k) = d.find? (fun p => p.1 = k) := by
  induction d with
  | nil => rfl
  | cons q d ih =>
    rw [List.map_cons]
    by_cases hq : q.1 = k2
    · have h2 : ¬ q.1 = k := by rw [hq]; exact hne
      rw [if_pos hq, List.find?_cons_of_neg _ (by simpa using hne),
        List.find?_cons_of_neg _ (by simpa using h2), ih]
    · by_cases hk : q.1 = k
      · rw [if_neg hq, List.find?_cons_of_pos _ (by simpa using hk),
          List.find?_cons_of_pos _ (by simpa using hk)]
      · rw [if_neg hq, List.find?_cons_of_neg _ (by simpa using hk),
          List.find?_cons_of_neg _ (by simpa using hk), ih]

theorem find?_append_not_head (d : PyDict) (k k2 : String) (v : PyVal)
    (hne : k2 ≠ k) :
    (d ++ [(k2, v)]).find? (fun p => p.1 = k) = d.find? (fun p => p.1 = k) := by
  rw [List.find?_append]
  have h1 : List.find? (fun p => decide (p.1 = k)) [(k2, v)] = none := by
    simp [hne]
  rw [h1]
  cases d.find? (fun p => decide (p.1 = k)) <;> rfl

theorem find?_append_none (d : PyDict) (k : String) (v : PyVal)
    (h : d.find? (fun p => p.1 = k) = none) :
    (d ++ [(k, v)]).find? (fun p => p.1 = k) = some (k, v) := by
  rw [List.find?_append, h]
  simp

/-- Setting `d[k] = v` makes `d.get(k)` return `v`. -/
theorem dictGet_dictSet_self (d : PyDict) (k : String) (v : PyVal) :
    dictGet (dictSet d k v) k = some v := by
  unfold dictSet dictGet
  by_cases h : d.any (fun p => p.1 = k) = true
  · rw [if_pos h, find?_map_set d k v h]
    rfl
  · have hf : d.find? (fun p => decide (p.1 = k)) = none := by
      rw [List.find?_eq_none]
      intro x hx hpx
      exact h (List.any_eq_true.mpr ⟨x, hx, hpx⟩)
    rw [if_neg h, find?_append_none d k v hf]
    rfl

/-- Setting a different key leaves `d.get(k)` unchanged. -/
theorem dictGet_dictSet_ne (d : PyDict) (k k2 : String) (v : PyVal)
    (hne : k2 ≠ k) : dictGet (dictSet d k2 v) k = dictGet d k := by
  unfold dictSet dictGet
  by_cases h : d.any (fun p => p.1 = k2) = true
  · rw [if_pos h, find?_map_set_ne d k k2 v hne]
  · rw [if_neg h, find?_append_not_head d k k2 v hne]

/-- Keys outside `kw` are untouched by `d.update(kw)`. -/
theorem dictGet_dictUpdate_notin (d kw : PyDict) (k : String)
    (h : k ∉ kw.map Prod.fst) : dictGet (dictUpdate d kw) k = dictGet d k := by
  induction kw generalizing d with
  | nil => rfl
  | cons q kw ih =>
    have hstep : dictUpdate d (q :: kw) = dictUpdate (dictSet d q.1 q.2) kw := rfl
    have h1 : q.1 ≠ k := by
      intro hq
      exact h (by rw [List.map_cons, hq]; exact List.mem_cons_self _ _)
    have h2 : k ∉ kw.map Prod.fst := by
      intro hk
      exact h (by rw [List.map_cons]; exact List.mem_cons_of_mem _ hk)
    rw [hstep, ih _ h2, dictGet_dictSet_ne d k q.1 q.2 h1]

/-- After `d.update(kw)` with dict-shaped `kw` (no duplicate keys), a key
of `kw` reads back its `kw` value. -/
theorem dictGet_dictUpdate_self (d kw : PyDict) (k : String) (v : PyVal)
    (hnd : (kw.map Prod.fst).Nodup) (hv : dictGet kw k = some v) :
    dictGet (dictUpdate d kw) k = some v := by
  induction kw generalizing d with
  | nil => simp [dictGet, List.find?] at hv
  | cons q kw ih =>
    rw [List.map_cons, List.nodup_cons] at hnd
    have hstep : dictUpdate d (q :: kw) = dictUpdate (dictSet d q.1 q.2) kw := rfl
    by_cases hq : q.1 = k
    · have hv2 : v = q.2 := by
        unfold dictGet at hv
        rw [List.find?_cons_of_pos _ (by simpa using hq)] at hv
        simpa using hv.symm
      have hnotin : k ∉ kw.map Prod.fst := by
        rw [← hq]; exact hnd.1
      rw [hstep, dictGet_dictUpdate_notin _ _ _ hnotin, ← hq, hv2,
        dictGet_dictSet_self]
    · have hv2 : dictGet kw k = some v := by
        unfold dictGet at hv ⊢
        rw [List.find?_cons_of_neg _ (by simpa using hq)] at hv
        exact hv
      rw [hstep]
      exact ih _ hnd.2 hv2

/- ====================== pipeline lemmas and claims ====================== -/

/-- Unfolding equation of `process_file` on a non-empty step list. -/
theorem process_file_cons (s : PyStep) (rest : List PyStep)
    (file : Option Frame) :
    TSPipeline.process_file (s :: rest) file =
      (match stepCall s file with
       | .ok f2 => TSPipeline.process_file rest f2
       | .error e =>
         match file with
         | some f => .ok (some (setError f e))
         | none =>
           .error "AttributeError: NoneType object has no attribute report") :=
  rfl

/-- Unfolding equation of `process` on a non-empty input. -/
theorem process_cons (p : TSPipelineState) (f : Frame) (fs : List Frame) :
    TSPipeline.process p (f :: fs) =
      (match TSPipeline.process_file p.steps (some f) with
       | .error e => (p, [], some e)
       | .ok none => TSPipeline.process p fs
       | .ok (some f2) =>
         let p2 : TSPipelineState :=
           { p with
             report := ResultRecorder.record p.report
                         (TSInstant.str f2.instant) f2.report,
             n := p.n + 1 }
         let res := TSPipeline.process p2 fs
         (res.1, f2 :: res.2.1, res.2.2)) :=
  rfl

/-- A prefix of steps that all succeeded composes with the remaining
steps: `process_file` continues after it with the prefix's result. -/
theorem processFile_append_of_runSteps :
    ∀ (l1 : List PyStep) (file x : Option Frame),
    runSteps l1 file = Except.ok x →
    ∀ l2, TSPipeline.process_file (l1 ++ l2) file =
      TSPipeline.process_file l2 x := by
  intro l1
  induction l1 with
  | nil =>
    intro file x h l2
    cases h
    rfl
  | cons s rest ih =>
    intro file x h l2
    rw [List.cons_append, process_file_cons]
    unfold runSteps at h
    cases hs : stepCall s file with
    | ok f2 =>
      rw [hs] at h
      exact ih f2 x h l2
    | error e =>
      rw [hs] at h
      simp at h

/-- C1: if the steps before `s` all succeed on frame `f`, producing the
partially processed frame `f1`, and `s` raises with message `e`, then
`process_file` stops at `s` (the post-steps never run), stores the
stringified exception under `Errors` in the frame's report, and returns
the partially processed frame instead of re-raising; consequently the
driver loop records and yields that frame and goes on to process the rest
of the batch. -/
theorem c1_step_failure_isolated :
    ∀ (pre post : List PyStep) (s : PyStep) (f f1 : Frame) (e : String),
    runSteps pre (some f) = Except.ok (some f1) →
    stepCall s (some f1) = Except.error e →
    (TSPipeline.process_file (pre ++ s :: post) (some f) =
        Except.ok (some (setError f1 e))
      ∧ dictGet (setError f1 e).report "Errors" = some (.str e)
      ∧ ∀ (p : TSPipelineState) (fs : List Frame),
          p.steps = pre ++ s :: post →
          TSPipeline.process p (f :: fs) =
            (let f2 := setError f1 e
             let p2 : TSPipelineState :=
               { p with
                 report := ResultRecorder.record p.report
                             (TSInstant.str f2.instant) f2.report,
                 n := p.n + 1 }
             let res := TSPipeline.process p2 fs
             (res.1, f2 :: res.2.1, res.2.2))) := by
  intro pre post s f f1 e h1 h2
  have hpf : TSPipeline.process_file (pre ++ s :: post) (some f) =
      Except.ok (some (setError f1 e)) := by
    rw [processFile_append_of_runSteps pre (some f) (some f1) h1,
      process_file_cons, h2]
  refine ⟨hpf, ?_, ?_⟩
  · unfold setError
    exact dictGet_dictSet_self _ _ _
  · intro p fs hsteps
    rw [process_cons, hsteps, hpf]

/-- C1 witness: a concrete three-step pipeline (CopyStep, a raising step,
CopyStep) on a concrete frame. -/
theorem c1_step_failure_isolated_witness :
    TSPipeline.process_file ([copyStep] ++ raisingStep "boom" :: [copyStep])
        (some frameA) = Except.ok (some (setError frameA "boom"))
    ∧ dictGet (setError frameA "boom").report "Errors" =
        some (.str "boom") :=
  ⟨(c1_step_failure_isolated [copyStep] [copyStep] (raisingStep "boom")
      frameA frameA "boom" rfl rfl).1,
   (c1_step_failure_isolated [copyStep] [copyStep] (raisingStep "boom")
      frameA frameA "boom" rfl rfl).2.1⟩

/-- C2 counterexample: a pipeline holding the code's own
ResultRecorderStep yields zero results for a one-frame input, so `process`
does not yield exactly one result per input frame. -/
theorem c2_process_counterexample :
    TSPipeline.process pRR [frameA] = (pRR, [], none)
    ∧ ([] : List Frame).length ≠ [frameA].length :=
  ⟨rfl, by decide⟩

/-- C2 amended: whenever the step chain maps each input frame `f` to a
non-null frame `g f` (the documented Step contract), `process` yields
exactly one result per input frame, in input order; every yielded frame is
recorded into the aggregator keyed by the string of its Instant with the
frame's report as the field map, the processed-frame counter grows by one
per yielded frame, and no exception escapes. A frame whose chain returns
None is silently dropped instead (claim C10). -/
theorem c2_process_amended :
    ∀ (p : TSPipelineState) (fs : List Frame) (g : Frame → Frame),
    (∀ f ∈ fs, TSPipeline.process_file p.steps (some f) =
        Except.ok (some (g f))) →
    (TSPipeline.process p fs).2.1 = fs.map g
    ∧ (TSPipeline.process p fs).1.n = p.n + fs.length
    ∧ (TSPipeline.process p fs).2.2 = none
    ∧ (TSPipeline.process p fs).1.report =
        fs.foldl (fun r f => ResultRecorder.record r
          (TSInstant.str (g f).instant) (g f).report) p.report := by
  intro p fs g
  induction fs generalizing p with
  | nil =>
    intro _
    exact ⟨rfl, by simp [TSPipeline.process], rfl, rfl⟩
  | cons f fs ih =>
    intro hg
    have hf := hg f (List.mem_cons_self _ _)
    have hrest := ih
      { p with
        report := ResultRecorder.record p.report
          (TSInstant.str (g f).instant) (g f).report,
        n := p.n + 1 }
      (fun f2 h2 => hg f2 (List.mem_cons_of_mem _ h2))
    rw [process_cons, hf]
    refine ⟨?_, ?_, ?_, ?_⟩
    · simpa [List.map_cons] using hrest.1
    · simp only [List.length_cons]
      rw [hrest.2.1]
      show p.n + 1 + fs.length = p.n + (fs.length + 1)
      omega
    · exact hrest.2.2.1
    · simpa using hrest.2.2.2

/-- C2 amended witness: a CopyStep pipeline over two concrete frames
yields both frames in order, counts two frames, and records both. -/
theorem c2_process_amended_witness :
    (TSPipeline.process pCopy [frameA, frameB]).2.1 = [frameA, frameB]
    ∧ (TSPipeline.process pCopy [frameA, frameB]).1.n = 2 :=
  ⟨by simpa using
      (c2_process_amended pCopy [frameA, frameB] id (fun f _ => rfl)).1,
   by simpa using
      (c2_process_amended pCopy [frameA, frameB] id (fun f _ => rfl)).2.1⟩

/-- C10: a frame on which the step chain returns None is silently dropped
by the driver: the batch result is as if the frame had not been in the
input at all (not recorded, counter untouched, not yielded); the code's
own ResultRecorderStep returns None from `process_file` for every frame;
in general the output sequence is never longer than the input. -/
theorem c10_none_result_dropped :
    (∀ (p : TSPipelineState) (f : Frame) (fs : List Frame),
        TSPipeline.process_file p.steps (some f) = Except.ok none →
        TSPipeline.process p (f :: fs) = TSPipeline.process p fs)
    ∧ (∀ (st : RRStepState) (f : Frame),
        TSPipeline.process_file [resultRecorderStepAsStep st] (some f) =
          Except.ok none)
    ∧ (∀ (p : TSPipelineState) (fs : List Frame),
        (TSPipeline.process p fs).2.1.length ≤ fs.length) := by
  refine ⟨?_, ?_, ?_⟩
  · intro p f fs h
    rw [process_cons, h]
  · intro st f
    rfl
  · intro p fs
    induction fs generalizing p with
    | nil => simp [TSPipeline.process]
    | cons f fs ih =>
      rw [process_cons]
      cases hpf : TSPipeline.process_file p.steps (some f) with
      | error e => simp
      | ok o =>
        cases o with
        | none =>
          exact Nat.le_succ_of_le (ih p)
        | some f2 =>
          simp only [List.length_cons]
          exact Nat.succ_le_succ (ih _)

/-- C10 witness: a pipeline holding the code's ResultRecorderStep drops a
concrete frame: processing `[frameA]` equals processing `[]`. -/
theorem c10_none_result_dropped_witness :
    TSPipeline.process pRR [frameA] = TSPipeline.process pRR [] :=
  c10_none_result_dropped.1 pRR frameA []
    (c10_none_result_dropped.2.1 rrInit frameA)

/- ====================== recorder lemmas and claim C5 ====================== -/

theorem addFieldsList_cons (fs : List String) (k : String) (ks : List String) :
    addFieldsList fs (k :: ks) =
      addFieldsList (if k ∈ fs then fs else fs ++ [k]) ks :=
  rfl

theorem record_fields_aux (i : String) (kwargs : PyDict) :
    ∀ (kws : List (String × PyVal)) (acc : Recorder),
    (kws.foldl
      (fun acc kv =>
        { fields := if kv.1 ∈ acc.fields then acc.fields
                    else acc.fields ++ [kv.1],
          data := dataUpd acc.data i kwargs })
      acc).fields = addFieldsList acc.fields (kws.map Prod.fst) := by
  intro kws
  induction kws with
  | nil =>
    intro acc
    rfl
  | cons p kws ih =>
    intro acc
    rw [List.foldl_cons, List.map_cons, addFieldsList_cons]
    exact ih _

/-- The field list after `record` is the discovery-order fold of the
kwargs keys, independently of the instant and of previous data. -/
theorem record_fields (r : Recorder) (i : String) (kw : PyDict) :
    (ResultRecorder.record r i kw).fields =
      addFieldsList r.fields (kw.map Prod.fst) :=
  record_fields_aux i kw kw r

/-- For non-empty kwargs, the data table after `record` is a
`data[key].update(kwargs)` applied last (the loop body repeats the update,
and the final iteration's update is the data that remains). -/
theorem record_data_last (r : Recorder) (i : String) (kw : PyDict)
    (h : kw ≠ []) :
    ∃ d, (ResultRecorder.record r i kw).data = dataUpd d i kw := by
  rcases List.eq_nil_or_concat kw with rfl | ⟨l, q, hkw⟩
  · exact absurd rfl h
  · rw [List.concat_eq_append] at hkw
    unfold ResultRecorder.record
    rw [show kw.foldl
        (fun acc kv =>
          ({ fields := if kv.1 ∈ acc.fields then acc.fields
                       else acc.fields ++ [kv.1],
             data := dataUpd acc.data i kw } : Recorder))
        r =
      (l ++ [q]).foldl
        (fun acc kv =>
          ({ fields := if kv.1 ∈ acc.fields then acc.fields
                       else acc.fields ++ [kv.1],
             data := dataUpd acc.data i kw } : Recorder))
        r from by rw [← hkw]]
    rw [List.foldl_append]
    exact ⟨_, rfl⟩

/-- Looking up the updated instant entry after `data[i].update(kw)` finds
a dict of the form `prev.update(kw)`. -/
theorem find?_dataUpd (d : List (String × PyDict)) (i : String) (kw : PyDict) :
    ∃ prev, ((dataUpd d i kw).find? (fun p => p.1 = i)).map (fun p => p.2) =
      some (dictUpdate prev kw) := by
  unfold dataUpd
  by_cases h : d.any (fun p => p.1 = i) = true
  · rw [if_pos h]
    induction d with
    | nil => simp at h
    | cons q d ih =>
      rw [List.map_cons]
      by_cases hq : q.1 = i
      · refine ⟨q.2, ?_⟩
        rw [if_pos hq, List.find?_cons_of_pos _ (by simpa using hq)]
        rfl
      · rw [if_neg hq, List.find?_cons_of_neg _ (by simpa using hq)]
        apply ih
        rw [List.any_cons] at h
        rcases Bool.or_eq_true_iff.mp h with h1 | h1
        · exact absurd (of_decide_eq_true h1) hq
        · exact h1
  · rw [if_neg h]
    refine ⟨[], ?_⟩
    have hf : d.find? (fun p => decide (p.1 = i)) = none := by
      rw [List.find?_eq_none]
      intro x hx hpx
      exact h (List.any_eq_true.mpr ⟨x, hx, hpx⟩)
    rw [List.find?_append, hf]
    simp

/-- C5: recording twice for the same instant with overlapping field names
keeps only the latest value per field (last write per instant+field wins),
and the known-field list is the discovery-order fold of the kwargs keys of
both calls, whatever the instants involved (so discovery order is
preserved across distinct instants). -/
theorem c5_record_last_write_wins :
    (∀ (r : Recorder) (i : String) (kw1 kw2 : PyDict) (k : String) (v : PyVal),
      (kw2.map Prod.fst).Nodup →
      dictGet kw2 k = some v →
      recGet (ResultRecorder.record (ResultRecorder.record r i kw1) i kw2)
        i k = some v)
    ∧ (∀ (r : Recorder) (i1 i2 : String) (kw1 kw2 : PyDict),
      (ResultRecorder.record (ResultRecorder.record r i1 kw1) i2 kw2).fields =
        addFieldsList (addFieldsList r.fields (kw1.map Prod.fst))
          (kw2.map Prod.fst)) := by
  constructor
  · intro r i kw1 kw2 k v hnd hv
    have hne : kw2 ≠ [] := by
      intro hz
      rw [hz] at hv
      simp [dictGet] at hv
    obtain ⟨d, hd⟩ := record_data_last (ResultRecorder.record r i kw1) i kw2 hne
    obtain ⟨prev, hprev⟩ := find?_dataUpd d i kw2
    unfold recGet
    rw [hd, hprev]
    exact dictGet_dictUpdate_self prev kw2 k v hnd hv
  · intro r i1 i2 kw1 kw2
    rw [record_fields, record_fields]

/- ====================== ordering lemmas and claim C8 ====================== -/

theorem natDecAux_succ (f n : Nat) :
    natDecAux (f + 1) n = if n < 10 then [Nat.digitChar n]
      else natDecAux f (n / 10) ++ [Nat.digitChar (n % 10)] :=
  rfl

theorem natDecAux_small (f n : Nat) (hf : 0 < f) (hn : n < 10) :
    natDecAux f n = [Nat.digitChar n] := by
  cases f with
  | zero => omega
  | succ f2 => rw [natDecAux_succ, if_pos hn]

/-- The fuel is irrelevant as long as it exceeds the number. -/
theorem natDecAux_irrel : ∀ f n : Nat, n < f → natDecAux f n = natDecChars n := by
  intro f
  induction f using Nat.strong_induction_on with
  | _ f ih =>
    intro n hn
    cases f with
    | zero => omega
    | succ f2 =>
      by_cases h10 : n < 10
      · rw [natDecAux_small _ _ (Nat.succ_pos _) h10, natDecChars,
          natDecAux_small _ _ (Nat.succ_pos _) h10]
      · have hpos : 0 < n := by omega
        have hdiv : n / 10 < n := Nat.div_lt_self hpos (by omega)
        rw [natDecAux_succ, if_neg h10, natDecChars, natDecAux_succ, if_neg h10]
        congr 1
        rw [ih f2 (Nat.lt_succ_self _) _ (by omega),
          ih n hn _ hdiv]

theorem natDec_step (n : Nat) (h : 10 ≤ n) :
    natDecChars n = natDecChars (n / 10) ++ [Nat.digitChar (n % 10)] := by
  rw [natDecChars, natDecAux_succ, if_neg (by omega)]
  congr 1
  exact natDecAux_irrel n (n / 10) (Nat.div_lt_self (by omega) (by omega))

theorem natDec1 (n : Nat) (h : n < 10) : natDecChars n = [Nat.digitChar n] := by
  rw [natDecChars, natDecAux_succ, if_pos h]

theorem natDec2 (a : Nat) (h1 : 10 ≤ a) (h2 : a ≤ 99) :
    natDecChars a = [Nat.digitChar (a / 10), Nat.digitChar (a % 10)] := by
  rw [natDec_step a h1, natDec1 (a / 10) (by omega)]
  rfl

/-- Characters of `%02d` for a two-digit-capable value. -/
theorem fmt02c_eq (a : Nat) (h : a ≤ 99) :
    fmt02c a = [Nat.digitChar (a / 10), Nat.digitChar (a % 10)] := by
  by_cases h10 : a < 10
  · have e1 : a / 10 = 0 := by omega
    have e2 : a % 10 = a := by omega
    rw [fmt02c, if_pos h10, natDec1 a h10, e1, e2]
    rfl
  · rw [fmt02c, if_neg h10, natDec2 a (by omega) h]

/-- A four-digit year renders as its high and low two-digit halves. -/
theorem natDec4 (y : Nat) (h1 : 1000 ≤ y) (h2 : y ≤ 9999) :
    natDecChars y = fmt02c (y / 100) ++ fmt02c (y % 100) := by
  have e0 : y / 10 / 10 = y / 100 := by omega
  rw [natDec_step y (by omega), natDec_step (y / 10) (by omega), e0,
    natDec2 (y / 100) (by omega) (by omega),
    fmt02c_eq (y / 100) (by omega), fmt02c_eq (y % 100) (by omega)]
  have e3 : y / 10 % 10 = y % 100 / 10 := by omega
  have e4 : y % 10 = y % 100 % 10 := by omega
  rw [e3, e4]
  rfl

theorem digitChar_lt_iff_fin :
    ∀ a b : Fin 10, (Nat.digitChar a.val < Nat.digitChar b.val ↔ a.val < b.val) := by
  decide

theorem digitChar_eq_iff_fin :
    ∀ a b : Fin 10, (Nat.digitChar a.val = Nat.digitChar b.val ↔ a.val = b.val) := by
  decide

theorem digitChar_lt_iff (a b : Nat) (ha : a < 10) (hb : b < 10) :
    Nat.digitChar a < Nat.digitChar b ↔ a < b :=
  digitChar_lt_iff_fin ⟨a, ha⟩ ⟨b, hb⟩

theorem digitChar_eq_iff (a b : Nat) (ha : a < 10) (hb : b < 10) :
    Nat.digitChar a = Nat.digitChar b ↔ a = b :=
  digitChar_eq_iff_fin ⟨a, ha⟩ ⟨b, hb⟩

theorem lexLt_cons_eqn (x y : Char) (xs ys : List Char) :
    lexLt (x :: xs) (y :: ys) =
      if x = y then lexLt xs ys else decide (x < y) :=
  rfl

theorem lexLt_nil : lexLt [] [] = false := rfl

theorem lexLt_cons (x y : Char) (xs ys : List Char) :
    lexLt (x :: xs) (y :: ys) = true ↔
      (x < y ∨ (x = y ∧ lexLt xs ys = true)) := by
  rw [lexLt_cons_eqn]
  by_cases h : x = y
  · subst h
    simp [lt_irrefl]
  · simp [h]

theorem lexLt_cons_self (x : Char) (xs ys : List Char) :
    lexLt (x :: xs) (x :: ys) = lexLt xs ys := by
  rw [lexLt_cons_eqn, if_pos rfl]

/-- Comparing two records that start with a two-digit zero-padded block:
the block decides unless equal, in which case the tails decide. -/
theorem lexLt_fmt02_block (a b : Nat) (ha : a ≤ 99) (hb : b ≤ 99)
    (r1 r2 : List Char) :
    lexLt (fmt02c a ++ r1) (fmt02c b ++ r2) = true ↔
      (a < b ∨ (a = b ∧ lexLt r1 r2 = true)) := by
  rw [fmt02c_eq a ha, fmt02c_eq b hb]
  simp only [List.cons_append, List.nil_append]
  rw [lexLt_cons, lexLt_cons,
    digitChar_lt_iff _ _ (by omega) (by omega),
    digitChar_eq_iff _ _ (by omega) (by omega),
    digitChar_lt_iff _ _ (by omega) (by omega),
    digitChar_eq_iff _ _ (by omega) (by omega)]
  constructor
  · rintro (h1 | ⟨h1, h2 | ⟨h2, h3⟩⟩)
    · left; omega
    · left; omega
    · right; exact ⟨by omega, h3⟩
  · rintro (h1 | ⟨h1, h3⟩)
    · by_cases hd : a / 10 < b / 10
      · left; exact hd
      · right; exact ⟨by omega, Or.inl (by omega)⟩
    · right; exact ⟨by omega, Or.inr ⟨by omega, h3⟩⟩

/-- Comparing two records that start with a four-digit year block. -/
theorem lexLt_year_block (a b : Nat) (r1 r2 : List Char)
    (ha1 : 1000 ≤ a) (ha2 : a ≤ 9999) (hb1 : 1000 ≤ b) (hb2 : b ≤ 9999) :
    lexLt (natDecChars a ++ r1) (natDecChars b ++ r2) = true ↔
      (a < b ∨ (a = b ∧ lexLt r1 r2 = true)) := by
  rw [natDec4 a ha1 ha2, natDec4 b hb1 hb2, List.append_assoc,
    List.append_assoc,
    lexLt_fmt02_block _ _ (by omega) (by omega),
    lexLt_fmt02_block _ _ (by omega) (by omega)]
  constructor
  · rintro (h1 | ⟨h1, h2 | ⟨h2, h3⟩⟩)
    · left; omega
    · left; omega
    · right; exact ⟨by omega, h3⟩
  · rintro (h1 | ⟨h1, h3⟩)
    · by_cases hd : a / 100 < b / 100
      · left; exact hd
      · right; exact ⟨by omega, Or.inl (by omega)⟩
    · right; exact ⟨by omega, Or.inr ⟨by omega, h3⟩⟩

/-- Character normal form of the canonical string of an index-free
instant. -/
theorem instantStr_data (i : TSInstant) (h : i.index = none) :
    (TSInstant.str i).data =
      natDecChars i.datetime.year ++ '_' ::
      (fmt02c i.datetime.month ++ '_' :: (fmt02c i.datetime.day ++ '_' ::
      (fmt02c i.datetime.hour ++ '_' :: (fmt02c i.datetime.minute ++ '_' ::
      (fmt02c i.datetime.second ++ '_' :: fmt02c i.subsecond))))) := by
  unfold TSInstant.str strftime_TS_chars
  rw [h]
  simp [List.append_assoc]

/-- C8 counterexample: for the index-free instants with subseconds 100 and
20 on the same datetime, the lexical order of the canonical strings says
`..._100 < ..._20` while chronological order says the opposite, so the
orders disagree. -/
theorem c8_lex_order_counterexample :
    lexLt (TSInstant.str c8i1).data (TSInstant.str c8i2).data = true
    ∧ ChronLt c8i2 c8i1
    ∧ ¬ ChronLt c8i1 c8i2 := by
  refine ⟨by decide, ?_, ?_⟩
  · unfold ChronLt
    decide
  · unfold ChronLt
    decide

/-- C8 amended: for index-free instants whose components render
fixed-width (four-digit year, subsecond at most 99 — every valid datetime
from year 1000 on qualifies), the natural lexical order of the canonical
strings coincides with chronological order by (datetime, subsecond), so
`save`'s key-sorted row order is chronological for such records. -/
theorem c8_lex_order_amended (i1 i2 : TSInstant)
    (h1 : i1.index = none) (h2 : i2.index = none)
    (hb1 : InstantRenderBounds i1) (hb2 : InstantRenderBounds i2) :
    lexLt (TSInstant.str i1).data (TSInstant.str i2).data = true ↔
      ChronLt i1 i2 := by
  obtain ⟨hy1a, hy1b, hmo1, hd1, hh1, hmi1, hs1, hss1⟩ := hb1
  obtain ⟨hy2a, hy2b, hmo2, hd2, hh2, hmi2, hs2, hss2⟩ := hb2
  rw [instantStr_data i1 h1, instantStr_data i2 h2,
    lexLt_year_block _ _ _ _ hy1a hy1b hy2a hy2b,
    lexLt_cons_self, lexLt_fmt02_block _ _ hmo1 hmo2,
    lexLt_cons_self, lexLt_fmt02_block _ _ hd1 hd2,
    lexLt_cons_self, lexLt_fmt02_block _ _ hh1 hh2,
    lexLt_cons_self, lexLt_fmt02_block _ _ hmi1 hmi2,
    lexLt_cons_self, lexLt_fmt02_block _ _ hs1 hs2,
    lexLt_cons_self,
    ← List.append_nil (fmt02c i1.subsecond),
    ← List.append_nil (fmt02c i2.subsecond),
    lexLt_fmt02_block _ _ hss1 hss2]
  unfold ChronLt
  simp only [lexLt_nil, Bool.false_eq_true, and_false, or_false]

/-- C8 amended witness: two concrete instants differing only in the
subsecond (6 vs 7) compare lexically in chronological order. -/
theorem c8_lex_order_amended_witness :
    lexLt (TSInstant.str ⟨⟨2017, 1, 2, 3, 4, 5⟩, 6, none⟩).data
      (TSInstant.str ⟨⟨2017, 1, 2, 3, 4, 5⟩, 7, none⟩).data = true :=
  (c8_lex_order_amended ⟨⟨2017, 1, 2, 3, 4, 5⟩, 6, none⟩
      ⟨⟨2017, 1, 2, 3, 4, 5⟩, 7, none⟩ rfl rfl
      ⟨by decide, by decide, by decide, by decide, by decide, by decide,
       by decide, by decide⟩
      ⟨by decide, by decide, by decide, by decide, by decide, by decide,
       by decide, by decide⟩).mpr
    (Or.inr ⟨rfl, Or.inr ⟨rfl, Or.inr ⟨rfl, Or.inr ⟨rfl, Or.inr ⟨rfl,
      Or.inr ⟨rfl, by decide⟩⟩⟩⟩⟩⟩)

/-- C5 witness: overlapping key "b" written twice keeps the second value;
the field list is the discovery-order union. -/
theorem c5_record_last_write_wins_witness :
    recGet (ResultRecorder.record
      (ResultRecorder.record Recorder.empty "2017_01_02_03_04_05_00"
        [("a", .int 1), ("b", .int 2)])
      "2017_01_02_03_04_05_00" [("b", .int 3), ("c", .int 4)])
      "2017_01_02_03_04_05_00" "b" = some (.int 3) :=
  c5_record_last_write_wins.1 Recorder.empty "2017_01_02_03_04_05_00"
    [("a", .int 1), ("b", .int 2)] [("b", .int 3), ("c", .int 4)]
    "b" (.int 3) (by decide) rfl
